import Mathlib

/-!
Shallow embedding of the SPI-to-UDP forwarding bridge in
src/esp32c3/main/app_main.c (constants HDR_LEN and PAYLOAD_MAX, function
spi_udp_forward_loop) and of the equivalent loop body in the older main of
src/unnamed/part_001.  Buffers of C type uint8_t[] are modelled as total
functions from offsets to naturals; a store truncates its value modulo 256.
Each pass through the infinite while loop is one application of
spi_udp_forward_step; the SPI master's behaviour during the pass (the bytes
it clocks in each phase and whether the two spi_slave_transmit calls
succeed, plus the ignored sendto outcome) is an IterInput.  The step
returns the trace of externally visible actions (set_rdy writes,
spi_slave_transmit requests, the sendto call) and, unless ESP_ERROR_CHECK
aborted the process, the updated buffers and the datagram handed to sendto.
-/

namespace SpiUdp

/-- The constant HDR_LEN = 10 from app_main.c line 54. -/
def HDR_LEN : Nat := 10

/-- The constant PAYLOAD_MAX = 2048 from app_main.c line 55. -/
def PAYLOAD_MAX : Nat := 2048

/-- Model of memset(buf, 0, n): offsets below n are zeroed, the rest of
memory is untouched. -/
def memset0 (buf : Nat → Nat) (n : Nat) : Nat → Nat :=
  fun i => if i < n then 0 else buf i

/-- Model of a completed SPI receive of n bytes into buf
(t.rx_buffer = buf, t.length = n * 8): the first n bytes of the clocked
stream src are stored, truncated to a byte as the buffer is uint8_t[];
offsets at or beyond n are untouched. -/
def copyIn (src : Nat → Nat) (n : Nat) (buf : Nat → Nat) : Nat → Nat :=
  fun i => if i < n then src i % 256 else buf i

/-- The first n bytes of a buffer, as a list (the bytes a memcpy of length
n out of buf transfers). -/
def bytesOf (buf : Nat → Nat) (n : Nat) : List Nat :=
  (List.range n).map buf

/-- Line 263 of app_main.c:
payload_len = (uint16_t)(hdr[8] | ((uint16_t)hdr[9] << 8)). -/
def decode_payload_len (hdr : Nat → Nat) : Nat :=
  hdr 8 ||| (hdr 9 <<< 8)

/-- Lines 264-265 of app_main.c:
if (payload_len > PAYLOAD_MAX) payload_len = PAYLOAD_MAX. -/
def clamp_payload_len (n : Nat) : Nat :=
  if n > PAYLOAD_MAX then PAYLOAD_MAX else n

/-- The two buffers of spi_udp_forward_loop (lines 247-248) that survive
from one pass of the while loop to the next: uint8_t hdr[HDR_LEN] and
uint8_t payload[PAYLOAD_MAX]. -/
structure LoopState where
  hdrBuf : Nat → Nat
  payloadBuf : Nat → Nat

/-- Externally visible actions of one pass of the loop: a write to the RDY
line (set_rdy, line 65), a spi_slave_transmit call requesting nbytes
(t.length = nbytes * 8), and the sendto call with the given byte count. -/
inductive Event where
  | setRdy (v : Nat)
  | spiRecv (nbytes : Nat)
  | sendto (len : Nat)
  deriving DecidableEq

/-- Recogniser for ready-line writes in a trace. -/
def isSetRdy : Event → Bool
  | Event.setRdy _ => true
  | _ => false

/-- The environment of one pass of the loop: the byte streams the SPI
master clocks during the header and payload transactions, whether each of
the two spi_slave_transmit calls succeeds (ESP_ERROR_CHECK aborts the
process on failure, lines 260 and 274), and the outcome of the sendto call
(whose return value the code discards, lines 281-282). -/
structure IterInput where
  hdrRx : Nat → Nat
  payloadRx : Nat → Nat
  hdrOk : Bool
  payloadOk : Bool
  sendOk : Bool

/-- One pass of the while loop of spi_udp_forward_loop (lines 251-283):
set_rdy(1); memset and receive the 10-byte header; decode and clamp
payload_len; set_rdy(1); memset and receive payload_len payload bytes;
build out = hdr bytes followed by payload bytes and call
sendto(out, HDR_LEN + payload_len).  Returns the event trace and, unless a
failed transmit aborted the process, the buffers for the next pass paired
with the datagram handed to sendto. -/
def spi_udp_forward_step (st : LoopState) (env : IterInput) :
    List Event × Option (LoopState × List Nat) :=
  let hdrBuf0 := memset0 st.hdrBuf HDR_LEN
  if env.hdrOk then
    let hdrBuf := copyIn env.hdrRx HDR_LEN hdrBuf0
    let payload_len := clamp_payload_len (decode_payload_len hdrBuf)
    if env.payloadOk then
      let payloadBuf := copyIn env.payloadRx payload_len (memset0 st.payloadBuf PAYLOAD_MAX)
      let out := bytesOf hdrBuf HDR_LEN ++ bytesOf payloadBuf payload_len
      ([Event.setRdy 1, Event.spiRecv HDR_LEN, Event.setRdy 1,
        Event.spiRecv payload_len, Event.sendto (HDR_LEN + payload_len)],
       some (⟨hdrBuf, payloadBuf⟩, out))
    else
      ([Event.setRdy 1, Event.spiRecv HDR_LEN, Event.setRdy 1,
        Event.spiRecv payload_len], none)
  else
    ([Event.setRdy 1, Event.spiRecv HDR_LEN], none)

/-- The trace of several consecutive passes of the loop: pass N runs to
completion before pass N+1 starts, and a failed transmit ends the process. -/
def spi_udp_forward_run (st : LoopState) : List IterInput → List Event
  | [] => []
  | env :: rest =>
    match spi_udp_forward_step st env with
    | (tr, none) => tr
    | (tr, some (st2, _)) => tr ++ spi_udp_forward_run st2 rest

end SpiUdp

namespace SpiUdp

theorem lor_shiftLeft_eight (a b : Nat) (h : a < 256) :
    a ||| (b <<< 8) = a + 256 * b := by
  have h8 : a < 2 ^ 8 := by simpa using h
  rw [Nat.shiftLeft_eq, Nat.mul_comm, Nat.lor_comm, ← Nat.mul_add_lt_is_or h8 b]
  omega

theorem clamp_payload_len_le (n : Nat) : clamp_payload_len n ≤ PAYLOAD_MAX := by
  unfold clamp_payload_len PAYLOAD_MAX
  split <;> omega

theorem copyIn_lt (src : Nat → Nat) (n : Nat) (buf : Nat → Nat) (i : Nat)
    (h : i < n) : copyIn src n buf i = src i % 256 :=
  if_pos h

theorem copyIn_ge (src : Nat → Nat) (n : Nat) (buf : Nat → Nat) (i : Nat)
    (h : ¬ i < n) : copyIn src n buf i = buf i :=
  if_neg h

theorem decode_copyIn (src : Nat → Nat) (buf : Nat → Nat) :
    decode_payload_len (copyIn src HDR_LEN buf) =
      decode_payload_len (fun i => src i % 256) := by
  unfold decode_payload_len
  rw [copyIn_lt src HDR_LEN buf 8 (by norm_num [HDR_LEN]),
    copyIn_lt src HDR_LEN buf 9 (by norm_num [HDR_LEN])]

theorem decode_mod_of_bytes (src : Nat → Nat) (hb : ∀ i, src i < 256) :
    decode_payload_len (fun i => src i % 256) = decode_payload_len src := by
  unfold decode_payload_len
  show src 8 % 256 ||| (src 9 % 256) <<< 8 = src 8 ||| src 9 <<< 8
  rw [Nat.mod_eq_of_lt (hb 8), Nat.mod_eq_of_lt (hb 9)]

theorem bytesOf_copyIn (src : Nat → Nat) (n : Nat) (buf : Nat → Nat) :
    bytesOf (copyIn src n buf) n = (List.range n).map (fun i => src i % 256) := by
  unfold bytesOf
  apply List.map_congr_left
  intro i hi
  exact copyIn_lt src n buf i (List.mem_range.mp hi)

theorem map_mod_of_bytes (src : Nat → Nat) (n : Nat) (hb : ∀ i, src i < 256) :
    (List.range n).map (fun i => src i % 256) = bytesOf src n := by
  unfold bytesOf
  apply List.map_congr_left
  intro i _
  exact Nat.mod_eq_of_lt (hb i)

theorem step_success_parts (st : LoopState) (env : IterInput)
    (hh : env.hdrOk = true) (hp : env.payloadOk = true) :
    spi_udp_forward_step st env =
      ([Event.setRdy 1, Event.spiRecv HDR_LEN, Event.setRdy 1,
        Event.spiRecv (clamp_payload_len (decode_payload_len (fun i => env.hdrRx i % 256))),
        Event.sendto (HDR_LEN +
          clamp_payload_len (decode_payload_len (fun i => env.hdrRx i % 256)))],
       some (⟨copyIn env.hdrRx HDR_LEN (memset0 st.hdrBuf HDR_LEN),
              copyIn env.payloadRx
                (clamp_payload_len (decode_payload_len (fun i => env.hdrRx i % 256)))
                (memset0 st.payloadBuf PAYLOAD_MAX)⟩,
             (List.range HDR_LEN).map (fun i => env.hdrRx i % 256) ++
             (List.range
                 (clamp_payload_len (decode_payload_len (fun i => env.hdrRx i % 256)))).map
               (fun i => env.payloadRx i % 256))) := by
  unfold spi_udp_forward_step
  rw [hh, hp]
  simp only [if_true]
  rw [decode_copyIn env.hdrRx (memset0 st.hdrBuf HDR_LEN)]
  rw [bytesOf_copyIn env.hdrRx HDR_LEN (memset0 st.hdrBuf HDR_LEN)]
  rw [bytesOf_copyIn env.payloadRx _ (memset0 st.payloadBuf PAYLOAD_MAX)]

theorem step_hdr_failure (st : LoopState) (env : IterInput)
    (hh : env.hdrOk = false) :
    spi_udp_forward_step st env =
      ([Event.setRdy 1, Event.spiRecv HDR_LEN], none) := by
  unfold spi_udp_forward_step
  rw [hh]
  simp only [Bool.false_eq_true, if_false]

theorem step_payload_failure (st : LoopState) (env : IterInput)
    (hh : env.hdrOk = true) (hp : env.payloadOk = false) :
    spi_udp_forward_step st env =
      ([Event.setRdy 1, Event.spiRecv HDR_LEN, Event.setRdy 1,
        Event.spiRecv (clamp_payload_len (decode_payload_len (fun i => env.hdrRx i % 256)))],
       none) := by
  unfold spi_udp_forward_step
  rw [hh, hp]
  simp only [if_true, Bool.false_eq_true, if_false]
  rw [decode_copyIn env.hdrRx (memset0 st.hdrBuf HDR_LEN)]

end SpiUdp


namespace SpiUdp

/-- C1: in a loop pass whose received header declares a payload length of
at most PAYLOAD_MAX and whose two SPI transactions succeed, the buffer
handed to sendto is exactly the 10 received header bytes followed,
byte for byte, by the payload_len received payload bytes, and its length is
HDR_LEN + payload_len; no further envelope is added. -/
theorem forward_exact_concat (st : LoopState) (env : IterInput)
    (hh : env.hdrOk = true) (hp : env.payloadOk = true)
    (hbytes : ∀ i, env.hdrRx i < 256) (pbytes : ∀ i, env.payloadRx i < 256)
    (hlen : decode_payload_len env.hdrRx ≤ PAYLOAD_MAX) :
    Option.map Prod.snd (spi_udp_forward_step st env).2 =
      some (bytesOf env.hdrRx HDR_LEN ++
            bytesOf env.payloadRx (decode_payload_len env.hdrRx)) ∧
    (bytesOf env.hdrRx HDR_LEN ++
      bytesOf env.payloadRx (decode_payload_len env.hdrRx)).length =
      HDR_LEN + decode_payload_len env.hdrRx := by
  have hcl : clamp_payload_len (decode_payload_len (fun i => env.hdrRx i % 256)) =
      decode_payload_len env.hdrRx := by
    rw [decode_mod_of_bytes env.hdrRx hbytes]
    unfold clamp_payload_len
    rw [if_neg (by omega)]
  rw [step_success_parts st env hh hp]
  constructor
  · rw [hcl, map_mod_of_bytes env.hdrRx HDR_LEN hbytes,
      map_mod_of_bytes env.payloadRx _ pbytes]
    rfl
  · simp [bytesOf]

/-- Witness for C1 at a concrete environment: header bytes all 5 (declared
payload length 1285), payload bytes all 7. -/
theorem forward_exact_concat_witness :
    Option.map Prod.snd
        (spi_udp_forward_step ⟨fun _ => 0, fun _ => 0⟩
          ⟨fun _ => 5, fun _ => 7, true, true, true⟩).2 =
      some (bytesOf (fun _ => 5) HDR_LEN ++
            bytesOf (fun _ => 7) (decode_payload_len (fun _ => 5))) :=
  (forward_exact_concat ⟨fun _ => 0, fun _ => 0⟩
      ⟨fun _ => 5, fun _ => 7, true, true, true⟩
      rfl rfl (by intro i; show (5:Nat) < 256; decide) (by intro i; show (7:Nat) < 256; decide) (by decide)).1

/-- C2: when the received header declares a payload length exceeding
PAYLOAD_MAX, the engine requests exactly PAYLOAD_MAX bytes in the payload
transaction, the sendto length is HDR_LEN + PAYLOAD_MAX = 2058 bytes, and
the pass completes normally (the excess is discarded with no error). -/
theorem oversize_clamped (st : LoopState) (env : IterInput)
    (hh : env.hdrOk = true) (hp : env.payloadOk = true)
    (hbytes : ∀ i, env.hdrRx i < 256)
    (hbig : decode_payload_len env.hdrRx > PAYLOAD_MAX) :
    (spi_udp_forward_step st env).1 =
      [Event.setRdy 1, Event.spiRecv HDR_LEN, Event.setRdy 1,
       Event.spiRecv PAYLOAD_MAX, Event.sendto (HDR_LEN + PAYLOAD_MAX)] ∧
    Option.map (fun p => (Prod.snd p).length) (spi_udp_forward_step st env).2 =
      some (HDR_LEN + PAYLOAD_MAX) := by
  have hcl : clamp_payload_len (decode_payload_len (fun i => env.hdrRx i % 256)) =
      PAYLOAD_MAX := by
    rw [decode_mod_of_bytes env.hdrRx hbytes]
    unfold clamp_payload_len
    rw [if_pos hbig]
  rw [step_success_parts st env hh hp, hcl]
  constructor
  · rfl
  · simp [HDR_LEN, PAYLOAD_MAX]

/-- Witness for C2 at a concrete environment: header bytes all 255, which
declare payload length 65535. -/
theorem oversize_clamped_witness :
    (spi_udp_forward_step ⟨fun _ => 0, fun _ => 0⟩
        ⟨fun _ => 255, fun _ => 1, true, true, true⟩).1 =
      [Event.setRdy 1, Event.spiRecv HDR_LEN, Event.setRdy 1,
       Event.spiRecv PAYLOAD_MAX, Event.sendto (HDR_LEN + PAYLOAD_MAX)] :=
  (oversize_clamped ⟨fun _ => 0, fun _ => 0⟩
      ⟨fun _ => 255, fun _ => 1, true, true, true⟩
      rfl rfl (by intro i; show (255:Nat) < 256; decide) (by decide)).1

/-- C3: the payload length decoded from a received header before clamping
equals hdr[8] + 256 * hdr[9], the little-endian unsigned 16-bit value of
bytes 8 and 9, and no other header byte takes part in the decode. -/
theorem decode_little_endian (hdr : Nat → Nat) (h8 : hdr 8 < 256) :
    decode_payload_len hdr = hdr 8 + 256 * hdr 9 ∧
    ∀ hdr2 : Nat → Nat, hdr2 8 = hdr 8 → hdr2 9 = hdr 9 →
      decode_payload_len hdr2 = decode_payload_len hdr := by
  constructor
  · exact lor_shiftLeft_eight (hdr 8) (hdr 9) h8
  · intro hdr2 e8 e9
    unfold decode_payload_len
    rw [e8, e9]

/-- Witness for C3 at a concrete header with all bytes 9. -/
theorem decode_little_endian_witness :
    decode_payload_len (fun _ => 9) = 9 + 256 * 9 :=
  (decode_little_endian (fun _ => 9) (by decide)).1

/-- C4: in a loop pass whose received header declares payload length 0,
the payload transaction requests 0 bytes (a no-op receive) and the
datagram handed to sendto is the 10 received header bytes alone. -/
theorem zero_payload_header_only (st : LoopState) (env : IterInput)
    (hh : env.hdrOk = true) (hp : env.payloadOk = true)
    (hbytes : ∀ i, env.hdrRx i < 256)
    (hzero : decode_payload_len env.hdrRx = 0) :
    (spi_udp_forward_step st env).1 =
      [Event.setRdy 1, Event.spiRecv HDR_LEN, Event.setRdy 1,
       Event.spiRecv 0, Event.sendto HDR_LEN] ∧
    Option.map Prod.snd (spi_udp_forward_step st env).2 =
      some (bytesOf env.hdrRx HDR_LEN) := by
  have hcl : clamp_payload_len (decode_payload_len (fun i => env.hdrRx i % 256)) = 0 := by
    rw [decode_mod_of_bytes env.hdrRx hbytes, hzero]
    unfold clamp_payload_len
    rw [if_neg (by omega)]
  rw [step_success_parts st env hh hp, hcl,
    map_mod_of_bytes env.hdrRx HDR_LEN hbytes]
  constructor
  · simp
  · simp

/-- Witness for C4 at a concrete environment with an all-zero header. -/
theorem zero_payload_header_only_witness :
    (spi_udp_forward_step ⟨fun _ => 0, fun _ => 0⟩
        ⟨fun _ => 0, fun _ => 0, true, true, true⟩).1 =
      [Event.setRdy 1, Event.spiRecv HDR_LEN, Event.setRdy 1,
       Event.spiRecv 0, Event.sendto HDR_LEN] :=
  (zero_payload_header_only ⟨fun _ => 0, fun _ => 0⟩
      ⟨fun _ => 0, fun _ => 0, true, true, true⟩
      rfl rfl (by intro i; show (0:Nat) < 256; decide) (by decide)).1

end SpiUdp

namespace SpiUdp

theorem mem_trace_sendto (st : LoopState) (env : IterInput) (len : Nat)
    (hmem : Event.sendto len ∈ (spi_udp_forward_step st env).1) :
    HDR_LEN ≤ len ∧ len ≤ HDR_LEN + PAYLOAD_MAX := by
  cases hh : env.hdrOk with
  | false =>
    rw [step_hdr_failure st env hh] at hmem
    simp at hmem
  | true =>
    cases hp : env.payloadOk with
    | false =>
      rw [step_payload_failure st env hh hp] at hmem
      simp at hmem
    | true =>
      rw [step_success_parts st env hh hp] at hmem
      simp at hmem
      subst hmem
      exact ⟨Nat.le_add_right _ _, Nat.add_le_add_left (clamp_payload_len_le _) _⟩

theorem mem_trace_spiRecv (st : LoopState) (env : IterInput) (n : Nat)
    (hmem : Event.spiRecv n ∈ (spi_udp_forward_step st env).1) :
    n ≤ PAYLOAD_MAX := by
  cases hh : env.hdrOk with
  | false =>
    rw [step_hdr_failure st env hh] at hmem
    simp at hmem
    subst hmem
    norm_num [HDR_LEN, PAYLOAD_MAX]
  | true =>
    cases hp : env.payloadOk with
    | false =>
      rw [step_payload_failure st env hh hp] at hmem
      simp at hmem
      rcases hmem with h | h
      · subst h; norm_num [HDR_LEN, PAYLOAD_MAX]
      · subst h; exact clamp_payload_len_le _
    | true =>
      rw [step_success_parts st env hh hp] at hmem
      simp at hmem
      rcases hmem with h | h
      · subst h; norm_num [HDR_LEN, PAYLOAD_MAX]
      · subst h; exact clamp_payload_len_le _

/-- C5: in every loop pass, whatever the received header and payload bytes
and whatever the outcome of the pass, any length handed to sendto is at
least HDR_LEN = 10 and at most HDR_LEN + PAYLOAD_MAX = 2058 bytes. -/
theorem sendto_length_bounds (st : LoopState) (env : IterInput) (len : Nat)
    (hmem : Event.sendto len ∈ (spi_udp_forward_step st env).1) :
    HDR_LEN ≤ len ∧ len ≤ HDR_LEN + PAYLOAD_MAX :=
  mem_trace_sendto st env len hmem

/-- Witness for C5 at a concrete environment with an all-zero header, whose
sendto length is 10. -/
theorem sendto_length_bounds_witness :
    HDR_LEN ≤ 10 ∧ 10 ≤ HDR_LEN + PAYLOAD_MAX :=
  sendto_length_bounds ⟨fun _ => 0, fun _ => 0⟩
    ⟨fun _ => 0, fun _ => 0, true, true, true⟩ 10 (by decide)

/-- C6: the event trace and the datagram (if any) of a loop pass are the
same from any two starting buffer states; since the buffers are the only
data carried from one pass to the next, the datagram forwarded in pass N+1
is a function of pass N+1's received bytes alone and no byte received in
pass N can appear in it. -/
theorem no_cross_iteration_leak (st1 st2 : LoopState) (env : IterInput) :
    (spi_udp_forward_step st1 env).1 = (spi_udp_forward_step st2 env).1 ∧
    Option.map Prod.snd (spi_udp_forward_step st1 env).2 =
      Option.map Prod.snd (spi_udp_forward_step st2 env).2 := by
  cases hh : env.hdrOk with
  | false =>
    rw [step_hdr_failure st1 env hh, step_hdr_failure st2 env hh]
    exact ⟨rfl, rfl⟩
  | true =>
    cases hp : env.payloadOk with
    | false =>
      rw [step_payload_failure st1 env hh hp, step_payload_failure st2 env hh hp]
      exact ⟨rfl, rfl⟩
    | true =>
      rw [step_success_parts st1 env hh hp, step_success_parts st2 env hh hp]
      exact ⟨rfl, rfl⟩

/-- C7: in a successful loop pass the ready line is raised exactly twice,
once immediately before the header transaction and once immediately before
the payload transaction; the header receive strictly precedes the payload
receive, which strictly precedes the sendto, as the explicit trace shows;
and the trace of consecutive passes is pass N's full trace followed by the
rest, so passes never overlap. -/
theorem ready_pulse_discipline (st : LoopState) (env : IterInput)
    (hh : env.hdrOk = true) (hp : env.payloadOk = true) :
    (spi_udp_forward_step st env).1 =
      [Event.setRdy 1, Event.spiRecv HDR_LEN, Event.setRdy 1,
       Event.spiRecv (clamp_payload_len (decode_payload_len (fun i => env.hdrRx i % 256))),
       Event.sendto (HDR_LEN +
         clamp_payload_len (decode_payload_len (fun i => env.hdrRx i % 256)))] ∧
    (spi_udp_forward_step st env).1.countP isSetRdy = 2 ∧
    ∀ rest, spi_udp_forward_run st (env :: rest) =
      (spi_udp_forward_step st env).1 ++
        spi_udp_forward_run
          ⟨copyIn env.hdrRx HDR_LEN (memset0 st.hdrBuf HDR_LEN),
           copyIn env.payloadRx
             (clamp_payload_len (decode_payload_len (fun i => env.hdrRx i % 256)))
             (memset0 st.payloadBuf PAYLOAD_MAX)⟩ rest := by
  refine ⟨?_, ?_, ?_⟩
  · rw [step_success_parts st env hh hp]
  · rw [step_success_parts st env hh hp]
    simp [List.countP_cons, isSetRdy]
  · intro rest
    simp only [spi_udp_forward_run]
    rw [step_success_parts st env hh hp]

/-- Witness for C7 at a concrete environment with an all-zero header. -/
theorem ready_pulse_discipline_witness :
    (spi_udp_forward_step ⟨fun _ => 0, fun _ => 0⟩
        ⟨fun _ => 0, fun _ => 0, true, true, true⟩).1.countP isSetRdy = 2 :=
  (ready_pulse_discipline ⟨fun _ => 0, fun _ => 0⟩
      ⟨fun _ => 0, fun _ => 0, true, true, true⟩ rfl rfl).2.1

/-- C8: if either spi_slave_transmit call of a pass fails, the pass yields
no next state (ESP_ERROR_CHECK terminates the process) and no sendto event
appears in the pass's trace, so no partial datagram is ever sent. -/
theorem abort_on_bus_failure (st : LoopState) (env : IterInput)
    (hfail : env.hdrOk = false ∨ env.payloadOk = false) :
    (spi_udp_forward_step st env).2 = none ∧
    ∀ len, Event.sendto len ∉ (spi_udp_forward_step st env).1 := by
  cases hh : env.hdrOk with
  | false =>
    rw [step_hdr_failure st env hh]
    exact ⟨rfl, by intro len h; simp at h⟩
  | true =>
    have hp : env.payloadOk = false := by
      rcases hfail with h | h
      · rw [hh] at h; exact absurd h (by simp)
      · exact h
    rw [step_payload_failure st env hh hp]
    exact ⟨rfl, by intro len h; simp at h⟩

/-- Witness for C8 at a concrete environment whose header transaction
fails. -/
theorem abort_on_bus_failure_witness :
    (spi_udp_forward_step ⟨fun _ => 0, fun _ => 0⟩
        ⟨fun _ => 0, fun _ => 0, false, true, true⟩).2 = none :=
  (abort_on_bus_failure ⟨fun _ => 0, fun _ => 0⟩
      ⟨fun _ => 0, fun _ => 0, false, true, true⟩ (Or.inl rfl)).1

/-- C9: the outcome of the sendto call is never inspected: a pass behaves
identically, in trace, next state and datagram, whatever value the send
returns, so the bridge proceeds unconditionally to the next pass. -/
theorem sendto_result_ignored (st : LoopState) (env : IterInput) (b : Bool) :
    spi_udp_forward_step st { env with sendOk := b } =
      spi_udp_forward_step st env := rfl

/-- C10: every SPI receive request of a pass is for at most PAYLOAD_MAX
bytes, a payload copy of the clamped length never writes at or beyond
offset PAYLOAD_MAX, and every sendto length is at most
HDR_LEN + PAYLOAD_MAX, so no pass writes outside the 2048-byte payload
array or the 2058-byte outbound array. -/
theorem buffer_writes_in_bounds (st : LoopState) (env : IterInput) :
    (∀ n, Event.spiRecv n ∈ (spi_udp_forward_step st env).1 → n ≤ PAYLOAD_MAX) ∧
    (∀ hdr src buf i, PAYLOAD_MAX ≤ i →
      copyIn src (clamp_payload_len (decode_payload_len hdr)) buf i = buf i) ∧
    (∀ len, Event.sendto len ∈ (spi_udp_forward_step st env).1 →
      len ≤ HDR_LEN + PAYLOAD_MAX) := by
  refine ⟨?_, ?_, ?_⟩
  · intro n hn
    exact mem_trace_spiRecv st env n hn
  · intro hdr src buf i hi
    apply copyIn_ge
    have := clamp_payload_len_le (decode_payload_len hdr)
    omega
  · intro len hl
    exact (mem_trace_sendto st env len hl).2

/-- Witness for C10: with all header bytes 255 the clamped length is 2048
and the payload copy leaves offset 2048 untouched. -/
theorem buffer_writes_in_bounds_witness :
    copyIn (fun _ => 7) (clamp_payload_len (decode_payload_len (fun _ => 255)))
      (fun _ => 9) 2048 = 9 :=
  (buffer_writes_in_bounds ⟨fun _ => 0, fun _ => 0⟩
      ⟨fun _ => 0, fun _ => 0, true, true, true⟩).2.1
    (fun _ => 255) (fun _ => 7) (fun _ => 9) 2048 (by decide)

end SpiUdp
